import Mathlib

/-!
# Verification of the XDPoSChain contract-creation tracer and gas estimation

Shallow embedding of `eth/tracers/native/contract.go` (the `contractTracer`
native tracer and its bytecode scanner `findOpcodes`), together with a
spec-modelled gas-estimation engine whose behaviour is pinned down by
`accounts/abi/bind/backends/simulated_test.go`.

Machine bytes are modelled as `Nat` values below 256 where it matters; Go
byte arithmetic on push opcodes stays inside `[96, 127]`, so no wrap-around
occurs and plain `Nat` arithmetic is exact.
-/

namespace XDC

/-- Modelled from the spec: `vm.OpCode.IsPush` of the `core/vm` package is not
under `src/`; per the spec glossary a push-class instruction is one that
consumes a fixed number of following bytes as an immediate operand, i.e.
`PUSH1` (0x60 = 96) through `PUSH32` (0x7f = 127). -/
def isPushOp (op : Nat) : Bool :=
  96 ≤ op && op ≤ 127

/-- The cursor advance of one iteration of the scanner loop: a push
instruction skips its immediate operand (`op - 95` bytes) plus the
instruction byte itself (`i += int(op - 95); i++` in the source); any other
instruction advances by one byte (`i++`). -/
def nextIndex (bytecode : List Nat) (i : Nat) : Nat :=
  if isPushOp (bytecode.getD i 0) then i + (bytecode.getD i 0 - 95) + 1 else i + 1

/-- The loop of `findOpcodes` from `contract.go`, with the loop counter `i`
made explicit: read the byte at `i` (the loop guard `i < len(bytecode)` is
the bounds proof, so the read is in bounds by construction), skip push
opcodes and their arguments, otherwise compare with the target and return
`true` on a match. -/
def findOpcodesAux (bytecode : List Nat) (opcode : Nat) (i : Nat) : Bool :=
  if h : i < bytecode.length then
    let op := bytecode.get ⟨i, h⟩
    if isPushOp op then
      findOpcodesAux bytecode opcode (nextIndex bytecode i)
    else if op = opcode then
      true
    else
      findOpcodesAux bytecode opcode (nextIndex bytecode i)
  else
    false
termination_by bytecode.length - i
decreasing_by
  all_goals
    unfold nextIndex
    split <;> omega

/-- Function `findOpcodes` from `contract.go`: compare bytecode with the given opcode,
skipping PUSH instructions and their immediate arguments. -/
def findOpcodes (bytecode : List Nat) (opcode : Nat) : Bool :=
  findOpcodesAux bytecode opcode 0

/-- The instruction positions of a byte sequence, starting the decode walk at
offset `i`: offset `i` itself, then the positions after skipping the
instruction at `i` together with its immediate operand (if any). Immediate
bytes of push instructions are exactly the in-range offsets NOT in this
list. This is the reference notion of instruction boundaries the spec's
"genuine instruction occurrence" is phrased with. -/
def instrPositionsFrom (bytecode : List Nat) (i : Nat) : List Nat :=
  if i < bytecode.length then
    i :: instrPositionsFrom bytecode (nextIndex bytecode i)
  else
    []
termination_by bytecode.length - i
decreasing_by
  unfold nextIndex
  split <;> omega

/-- Written from the spec's words ("the target opcode appears as a genuine
instruction occurrence, not as an immediate-data byte"): some instruction
position of the sequence holds the byte `opcode`. -/
def specGenuineOccurrence (bytecode : List Nat) (opcode : Nat) : Bool :=
  (instrPositionsFrom bytecode 0).any (fun j => bytecode.getD j 0 = opcode)

/-- Modelled from the spec: the `core/vm` opcode naming table backing
`vm.StringToOp` is not under `src/`; this is the standard EVM instruction-set
table (one byte per named instruction, push-class instructions `PUSH1`-`PUSH32`
occupying 0x60-0x7f), per the spec glossary "Opcode / instruction code: a
single byte identifying one virtual-machine instruction". -/
def opcodeTable : List (String × Nat) :=
  [("STOP", 0x00), ("ADD", 0x01), ("MUL", 0x02), ("SUB", 0x03), ("DIV", 0x04),
   ("SDIV", 0x05), ("MOD", 0x06), ("SMOD", 0x07), ("ADDMOD", 0x08),
   ("MULMOD", 0x09), ("EXP", 0x0a), ("SIGNEXTEND", 0x0b),
   ("LT", 0x10), ("GT", 0x11), ("SLT", 0x12), ("SGT", 0x13), ("EQ", 0x14),
   ("ISZERO", 0x15), ("AND", 0x16), ("OR", 0x17), ("XOR", 0x18), ("NOT", 0x19),
   ("BYTE", 0x1a), ("SHL", 0x1b), ("SHR", 0x1c), ("SAR", 0x1d),
   ("SHA3", 0x20),
   ("ADDRESS", 0x30), ("BALANCE", 0x31), ("ORIGIN", 0x32), ("CALLER", 0x33),
   ("CALLVALUE", 0x34), ("CALLDATALOAD", 0x35), ("CALLDATASIZE", 0x36),
   ("CALLDATACOPY", 0x37), ("CODESIZE", 0x38), ("CODECOPY", 0x39),
   ("GASPRICE", 0x3a), ("EXTCODESIZE", 0x3b), ("EXTCODECOPY", 0x3c),
   ("RETURNDATASIZE", 0x3d), ("RETURNDATACOPY", 0x3e), ("EXTCODEHASH", 0x3f),
   ("BLOCKHASH", 0x40), ("COINBASE", 0x41), ("TIMESTAMP", 0x42),
   ("NUMBER", 0x43), ("DIFFICULTY", 0x44), ("GASLIMIT", 0x45),
   ("CHAINID", 0x46), ("SELFBALANCE", 0x47), ("BASEFEE", 0x48),
   ("POP", 0x50), ("MLOAD", 0x51), ("MSTORE", 0x52), ("MSTORE8", 0x53),
   ("SLOAD", 0x54), ("SSTORE", 0x55), ("JUMP", 0x56), ("JUMPI", 0x57),
   ("PC", 0x58), ("MSIZE", 0x59), ("GAS", 0x5a), ("JUMPDEST", 0x5b),
   ("PUSH1", 0x60), ("PUSH2", 0x61), ("PUSH3", 0x62), ("PUSH4", 0x63),
   ("PUSH5", 0x64), ("PUSH6", 0x65), ("PUSH7", 0x66), ("PUSH8", 0x67),
   ("PUSH9", 0x68), ("PUSH10", 0x69), ("PUSH11", 0x6a), ("PUSH12", 0x6b),
   ("PUSH13", 0x6c), ("PUSH14", 0x6d), ("PUSH15", 0x6e), ("PUSH16", 0x6f),
   ("PUSH17", 0x70), ("PUSH18", 0x71), ("PUSH19", 0x72), ("PUSH20", 0x73),
   ("PUSH21", 0x74), ("PUSH22", 0x75), ("PUSH23", 0x76), ("PUSH24", 0x77),
   ("PUSH25", 0x78), ("PUSH26", 0x79), ("PUSH27", 0x7a), ("PUSH28", 0x7b),
   ("PUSH29", 0x7c), ("PUSH30", 0x7d), ("PUSH31", 0x7e), ("PUSH32", 0x7f),
   ("DUP1", 0x80), ("DUP2", 0x81), ("DUP3", 0x82), ("DUP4", 0x83),
   ("DUP5", 0x84), ("DUP6", 0x85), ("DUP7", 0x86), ("DUP8", 0x87),
   ("DUP9", 0x88), ("DUP10", 0x89), ("DUP11", 0x8a), ("DUP12", 0x8b),
   ("DUP13", 0x8c), ("DUP14", 0x8d), ("DUP15", 0x8e), ("DUP16", 0x8f),
   ("SWAP1", 0x90), ("SWAP2", 0x91), ("SWAP3", 0x92), ("SWAP4", 0x93),
   ("SWAP5", 0x94), ("SWAP6", 0x95), ("SWAP7", 0x96), ("SWAP8", 0x97),
   ("SWAP9", 0x98), ("SWAP10", 0x99), ("SWAP11", 0x9a), ("SWAP12", 0x9b),
   ("SWAP13", 0x9c), ("SWAP14", 0x9d), ("SWAP15", 0x9e), ("SWAP16", 0x9f),
   ("LOG0", 0xa0), ("LOG1", 0xa1), ("LOG2", 0xa2), ("LOG3", 0xa3),
   ("LOG4", 0xa4),
   ("CREATE", 0xf0), ("CALL", 0xf1), ("CALLCODE", 0xf2), ("RETURN", 0xf3),
   ("DELEGATECALL", 0xf4), ("CREATE2", 0xf5), ("STATICCALL", 0xfa),
   ("REVERT", 0xfd), ("INVALID", 0xfe), ("SELFDESTRUCT", 0xff)]

/-- Modelled from the spec: `vm.StringToOp` of the `core/vm` package is not
under `src/`; it looks an instruction name up in the opcode table and, being
a Go map access, yields the zero value 0 for every unrecognized name. -/
def stringToOp (s : String) : Nat :=
  match opcodeTable.find? (fun p => p.1 = s) with
  | some p => p.2
  | none => 0

/-- Modelled from the spec: `vm.CREATE` (0xf0), the ordinary contract-creation
instruction, defined in the `core/vm` package which is not under `src/`. -/
def CREATE : Nat := 0xf0

/-- Modelled from the spec: `vm.CREATE2` (0xf5), the salted contract-creation
instruction, defined in the `core/vm` package which is not under `src/`. -/
def CREATE2 : Nat := 0xf5

/-- A machine address, as the 20-byte sequence identifying an account. -/
def Address := List Nat

/-- One lowercase hexadecimal digit. -/
def hexDigit (n : Nat) : Char :=
  if n < 10 then Char.ofNat (48 + n) else Char.ofNat (87 + n)

/-- Two lowercase hexadecimal digits for one byte. -/
def byteToHexChars (b : Nat) : List Char :=
  [hexDigit (b / 16 % 16), hexDigit (b % 16)]

/-- Modelled from the spec: the helper `bytesToHex` of the native tracer
package is not under `src/`; per the spec the captured bytecode is "rendered
as a hex-like string" — a 0x-prefixed lowercase hexadecimal rendering of the
bytes. -/
def bytesToHex (bs : List Nat) : String :=
  "0x" ++ String.mk (bs.flatMap byteToHexChars)

/-- Modelled from the spec: the helper `addrToHex` of the native tracer
package is not under `src/`; per the spec observations are keyed by
"hex-encoded address strings" — the 0x-prefixed lowercase hexadecimal
rendering of the 20 address bytes. -/
def addrToHex (a : Address) : String :=
  "0x" ++ String.mk (a.flatMap byteToHexChars)

/-- The `contractTracerConfig` struct of `contract.go`: target opcode to
trace, and whether bytecode is collected. -/
structure contractTracerConfig where
  OpCode : String
  WithByteCode : Bool
  deriving Repr, DecidableEq

/-- The observation mapping `map[string]string`: a Go map is a finite
key-value store with overwrite-on-assign semantics, modelled as a lookup
function from keys to optional values. -/
def AddrMap := String → Option String

/-- Go map assignment `m[k] = v`: overwrites any former binding of `k`. -/
def AddrMap.set (m : AddrMap) (k v : String) : AddrMap :=
  fun k' => if k' = k then some v else m k'

/-- The empty Go map (`make(map[string]string, 1)`). -/
def AddrMap.empty : AddrMap := fun _ => none

/-- The `contractTracer` struct of `contract.go`. The `interrupt` field is a
`uint32` written only by `Stop` (to 1) and read by hooks; all hooks run on
one thread, so its per-call semantics is that of a boolean flag. `reason` is
the textual interruption reason (a Go `error`, possibly nil). -/
structure contractTracer where
  Addrs : AddrMap
  config : contractTracerConfig
  interrupt : Bool
  reason : Option String

/-- Function `validateAndStoreOpCode` from `contract.go`: if the opcode is "inv", or
is nonempty and the scanner does not find it in the input, exit early;
otherwise store the input (as hex, or an empty marker) under the hex of the
deployed address. -/
def validateAndStoreOpCode (t : contractTracer) (input : List Nat) (toA : Address) :
    contractTracer :=
  if t.config.OpCode = "inv" ∨
      (t.config.OpCode ≠ "" ∧ ¬ findOpcodes input (stringToOp t.config.OpCode)) then
    t
  else if t.config.WithByteCode then
    { t with Addrs := t.Addrs.set (addrToHex toA) (bytesToHex input) }
  else
    { t with Addrs := t.Addrs.set (addrToHex toA) "" }

/-- Hook `CaptureStart` from `contract.go`: on the root frame, record the creation
when `create` is set. (The `env`, `gas` and `value` parameters are unused by
the source hook; `gas` and `value` are kept for signature fidelity.) -/
def CaptureStart (t : contractTracer) (fr toA : Address) (create : Bool)
    (input : List Nat) (gas value : Nat) : contractTracer :=
  if create then validateAndStoreOpCode t input toA else t

/-- Hook `CaptureEnd` from `contract.go`: a no-op. -/
def CaptureEnd (t : contractTracer) (output : List Nat) (gasUsed : Nat)
    (err : Option String) : contractTracer :=
  t

/-- Hook `CaptureState` from `contract.go`: a no-op. -/
def CaptureState (t : contractTracer) (pc : Nat) (op : Nat) (gas cost : Nat)
    (depth : Nat) (err : Option String) : contractTracer :=
  t

/-- Hook `CaptureFault` from `contract.go`: a no-op. -/
def CaptureFault (t : contractTracer) (pc : Nat) (op : Nat) (gas cost : Nat)
    (depth : Nat) (err : Option String) : contractTracer :=
  t

/-- Hook `CaptureEnter` from `contract.go`: skip if tracing was interrupted;
otherwise record the creation when the frame-opening opcode is CREATE or
CREATE2. -/
def CaptureEnter (t : contractTracer) (typ : Nat) (fr toA : Address)
    (input : List Nat) (gas value : Nat) : contractTracer :=
  if t.interrupt then t
  else if typ = CREATE ∨ typ = CREATE2 then validateAndStoreOpCode t input toA
  else t

/-- Hook `CaptureExit` from `contract.go`: a no-op. -/
def CaptureExit (t : contractTracer) (output : List Nat) (gasUsed : Nat)
    (err : Option String) : contractTracer :=
  t

/-- Method `Stop` from `contract.go`: record the reason and set the atomic
interruption flag. -/
def Stop (t : contractTracer) (err : Option String) : contractTracer :=
  { t with reason := err, interrupt := true }

/-- Method `GetResult` from `contract.go`: serialize the observation mapping and
return it together with the recorded interruption reason as the error
component. `json.Marshal` of a `map[string]string` cannot fail and is
modelled as returning the mapping itself. -/
def GetResult (t : contractTracer) : AddrMap × Option String :=
  (t.Addrs, t.reason)

/-- The tracer-building tail of `NewContractTracer` from `contract.go`,
shared by the nil-blob and decoded paths: start with an empty map and the
parsed configuration, then normalize an opcode name whose parse yields 0 yet
which is neither "STOP" nor the empty string to the sentinel "inv". -/
def mkTracer (config : contractTracerConfig) : contractTracer :=
  let opCode :=
    if stringToOp config.OpCode = 0 ∧ config.OpCode ≠ "STOP" ∧ config.OpCode ≠ "" then
      "inv"
    else config.OpCode
  { Addrs := AddrMap.empty
    config := { OpCode := opCode, WithByteCode := config.WithByteCode }
    interrupt := false
    reason := none }

/-- Constructor `NewContractTracer` from `contract.go`, operating on the outcome of the
`json.Unmarshal` step (an external decoder, modelled as an `Except` value;
`none` is a nil configuration blob, which is not decoded at all): a decode
error is returned as-is; otherwise the tracer is built by `mkTracer` — the
zero-value configuration for a nil blob, the decoded one otherwise. -/
def NewContractTracer (cfg : Option (Except String contractTracerConfig)) :
    Except String contractTracer :=
  match cfg with
  | some (Except.error e) => Except.error e
  | some (Except.ok config) => Except.ok (mkTracer config)
  | none => Except.ok (mkTracer ⟨"", false⟩)

/-- One invocation of a lifecycle hook, as data: the hook name together with
the arguments the executor passes it. -/
inductive HookEvent where
  | captureStart (fr toA : Address) (create : Bool) (input : List Nat) (gas value : Nat)
  | captureEnd (output : List Nat) (gasUsed : Nat) (err : Option String)
  | captureState (pc op gas cost depth : Nat) (err : Option String)
  | captureFault (pc op gas cost depth : Nat) (err : Option String)
  | captureEnter (typ : Nat) (fr toA : Address) (input : List Nat) (gas value : Nat)
  | captureExit (output : List Nat) (gasUsed : Nat) (err : Option String)

/-- Dispatch one hook invocation to the corresponding hook of the tracer. -/
def applyHook (t : contractTracer) : HookEvent → contractTracer
  | HookEvent.captureStart fr toA create input gas value =>
      CaptureStart t fr toA create input gas value
  | HookEvent.captureEnd output gasUsed err => CaptureEnd t output gasUsed err
  | HookEvent.captureState pc op gas cost depth err =>
      CaptureState t pc op gas cost depth err
  | HookEvent.captureFault pc op gas cost depth err =>
      CaptureFault t pc op gas cost depth err
  | HookEvent.captureEnter typ fr toA input gas value =>
      CaptureEnter t typ fr toA input gas value
  | HookEvent.captureExit output gasUsed err => CaptureExit t output gasUsed err

/-- Run a sequence of hook invocations left to right. -/
def applyHooks (t : contractTracer) (evs : List HookEvent) : contractTracer :=
  evs.foldl applyHook t

/-- Whether a hook invocation is a `CaptureStart` (root-frame) event. -/
def HookEvent.isCaptureStart : HookEvent → Bool
  | HookEvent.captureStart .. => true
  | _ => false

/-- Modelled from the spec: the outcome the Executor collaborator reports for
one trial execution of the call at a given gas budget (§4.5: success,
out-of-gas, revert with an optionally decodable reason, or an
invalid-instruction fault). The gas-estimation implementation itself is not
under `src/` (only its test is). -/
inductive ExecOutcome where
  | success
  | outOfGas
  | revert (reason : Option String)
  | invalidOpcode (detail : String)
  deriving Repr, DecidableEq

/-- Modelled from the spec: the verbatim message for a failure not
attributable to insufficient gas (§4.5/§6, pinned by
`TestSimulatedBackend_EstimateGas`): "always failing transaction (execution
reverted)", with the decoded revert reason appended in parentheses when
decodable, and an invalid-opcode variant carrying the fault detail. -/
def alwaysFailingText : ExecOutcome → String
  | ExecOutcome.revert none => "always failing transaction (execution reverted)"
  | ExecOutcome.revert (some r) =>
      "always failing transaction (execution reverted) (" ++ r ++ ")"
  | ExecOutcome.invalidOpcode d =>
      "always failing transaction (invalid opcode: " ++ d ++ ")"
  | _ => "always failing transaction"

/-- Modelled from the spec: the binary-search loop of the gas-estimation
engine (§4.5 step 3-4), which is not under `src/`. Invariant: `lo` is a
known-failing gas value and `hi` a known-succeeding one; stop when
`hi - lo ≤ 1` and return `hi`; probe the midpoint, tightening the matching
bound on success or out-of-gas, and short-circuit with the classified
failure on any failure not attributable to gas. -/
def gasSearch (exec : Nat → ExecOutcome) (lo hi : Nat) : Except String Nat :=
  if h : hi ≤ lo + 1 then
    Except.ok hi
  else
    match exec ((lo + hi) / 2) with
    | ExecOutcome.success => gasSearch exec lo ((lo + hi) / 2)
    | ExecOutcome.outOfGas => gasSearch exec ((lo + hi) / 2) hi
    | o => Except.error (alwaysFailingText o)
termination_by hi - lo
decreasing_by
  all_goals omega

/-- Modelled from the spec: the gas-estimation engine (§4.5), which is not
under `src/` (only `TestSimulatedBackend_EstimateGas` is). The upper bound
`cap` is the caller-supplied gas cap when positive, else the execution
ceiling; the feasibility probe at `cap` reports the classified failure
verbatim ("gas required exceeds allowance (<cap>)" when the call runs out of
gas at the cap); otherwise the binary search runs between the intrinsic
floor and `cap`. The lower bound is taken just below the intrinsic floor so
that it is a known-failing value, as data-model invariant (3) requires —
gas strictly below the intrinsic floor always fails. -/
def estimateGas (exec : Nat → ExecOutcome) (floor cap : Nat) : Except String Nat :=
  match exec cap with
  | ExecOutcome.success => gasSearch exec (floor - 1) cap
  | ExecOutcome.outOfGas =>
      Except.error ("gas required exceeds allowance (" ++ Nat.repr cap ++ ")")
  | o => Except.error (alwaysFailingText o)

/-- A concrete empty tracer with the match-all (empty) opcode filter, used by
concrete instances below. -/
def emptyFilterTracer : contractTracer :=
  { Addrs := AddrMap.empty
    config := { OpCode := "", WithByteCode := false }
    interrupt := false
    reason := none }

/-- A concrete 20-byte address used by concrete instances below. -/
def sampleAddr : Address :=
  [0, 0, 0, 0, 0, 0, 0, 0, 0, 0, 0, 0, 0, 0, 0, 0, 0, 0, 0, 1]

/-- Modelled from the spec: a plain value transfer between funded accounts
succeeds exactly when the gas budget reaches the protocol's fixed intrinsic
transfer cost of 21000 and fails with out-of-gas below it. -/
def transferExec (g : Nat) : ExecOutcome :=
  if 21000 ≤ g then ExecOutcome.success else ExecOutcome.outOfGas

/-- The negation of the early-exit guard of `validateAndStoreOpCode`: the
configured filter lets this creation input through. -/
def passesFilter (t : contractTracer) (input : List Nat) : Prop :=
  ¬ (t.config.OpCode = "inv" ∨
      (t.config.OpCode ≠ "" ∧ ¬ findOpcodes input (stringToOp t.config.OpCode)))

/-- A concrete empty tracer with the match-all filter and bytecode
collection enabled, used by concrete instances below. -/
def bytecodeTracer : contractTracer :=
  { Addrs := AddrMap.empty
    config := { OpCode := "", WithByteCode := true }
    interrupt := false
    reason := none }

/- ------------------------------------------------------------------ -/
/- Theorems                                                            -/
/- ------------------------------------------------------------------ -/

theorem lt_nextIndex (bytecode : List Nat) (i : Nat) : i < nextIndex bytecode i := by
  unfold nextIndex
  split <;> omega

example : findOpcodes [96, 0] 0 = false := by
  simp [findOpcodes, findOpcodesAux, nextIndex, isPushOp]

example : findOpcodes [96, 0, 0] 0 = true := by
  simp [findOpcodes, findOpcodesAux, nextIndex, isPushOp]

example : findOpcodes [96] 96 = false := by
  simp [findOpcodes, findOpcodesAux, nextIndex, isPushOp]

theorem get_eq_getD (bytecode : List Nat) (i : Nat) (h : i < bytecode.length) :
    bytecode.get ⟨i, h⟩ = bytecode.getD i 0 := by
  simp [List.getD_eq_getElem?_getD, List.getElem?_eq_getElem h]

theorem findOpcodesAux_of_lt (bytecode : List Nat) (opcode i : Nat)
    (h : i < bytecode.length) :
    findOpcodesAux bytecode opcode i =
      if isPushOp (bytecode.getD i 0) then
        findOpcodesAux bytecode opcode (nextIndex bytecode i)
      else if bytecode.getD i 0 = opcode then true
      else findOpcodesAux bytecode opcode (nextIndex bytecode i) := by
  rw [findOpcodesAux]
  simp only [h, dif_pos, get_eq_getD]

theorem findOpcodesAux_of_ge (bytecode : List Nat) (opcode i : Nat)
    (h : ¬ i < bytecode.length) : findOpcodesAux bytecode opcode i = false := by
  rw [findOpcodesAux]
  simp only [h, dif_neg, not_false_iff]

theorem instrPositionsFrom_of_lt (bytecode : List Nat) (i : Nat)
    (h : i < bytecode.length) :
    instrPositionsFrom bytecode i = i :: instrPositionsFrom bytecode (nextIndex bytecode i) := by
  rw [instrPositionsFrom]
  simp only [h, if_pos]

theorem instrPositionsFrom_of_ge (bytecode : List Nat) (i : Nat)
    (h : ¬ i < bytecode.length) : instrPositionsFrom bytecode i = [] := by
  rw [instrPositionsFrom]
  simp only [h, if_neg, not_false_iff]

/-- The scanner returns `true` from cursor `i` iff some instruction position
reachable from `i` holds a non-push byte equal to the target. -/
theorem findOpcodesAux_iff (bytecode : List Nat) (opcode : Nat) (i : Nat) :
    findOpcodesAux bytecode opcode i = true ↔
      ∃ j ∈ instrPositionsFrom bytecode i,
        isPushOp (bytecode.getD j 0) = false ∧ bytecode.getD j 0 = opcode := by
  generalize hk : bytecode.length - i = k
  induction k using Nat.strong_induction_on generalizing i with
  | _ k ih =>
    by_cases h : i < bytecode.length
    · have hnext := lt_nextIndex bytecode i
      have hrec := ih (bytecode.length - nextIndex bytecode i) (by omega)
        (nextIndex bytecode i) rfl
      rw [findOpcodesAux_of_lt bytecode opcode i h, instrPositionsFrom_of_lt bytecode i h]
      by_cases hp : isPushOp (bytecode.getD i 0)
      · rw [if_pos hp, hrec]
        constructor
        · rintro ⟨j, hj, hjp, hje⟩
          exact ⟨j, List.mem_cons_of_mem _ hj, hjp, hje⟩
        · rintro ⟨j, hj, hjp, hje⟩
          rcases List.mem_cons.1 hj with rfl | hj
          · rw [hp] at hjp
            cases hjp
          · exact ⟨j, hj, hjp, hje⟩
      · by_cases he : bytecode.getD i 0 = opcode
        · rw [if_neg hp, if_pos he]
          refine ⟨fun _ => ⟨i, List.mem_cons_self _ _, ?_, he⟩, fun _ => rfl⟩
          exact Bool.not_eq_true _ ▸ hp
        · rw [if_neg hp, if_neg he, hrec]
          constructor
          · rintro ⟨j, hj, hjp, hje⟩
            exact ⟨j, List.mem_cons_of_mem _ hj, hjp, hje⟩
          · rintro ⟨j, hj, hjp, hje⟩
            rcases List.mem_cons.1 hj with rfl | hj
            · exact absurd hje he
            · exact ⟨j, hj, hjp, hje⟩
    · rw [findOpcodesAux_of_ge bytecode opcode i h, instrPositionsFrom_of_ge bytecode i h]
      simp

/-- Claim C2, as frozen, is false on the code: the byte 0x60 occurs in the
one-byte sequence `[0x60]` as a genuine instruction occurrence (the `PUSH1`
instruction at offset 0, outside any push immediate), yet `findOpcodes`
returns `false` for it — the scanner skips push-class instruction bytes
without ever comparing them to the target. -/
theorem claim_C2_counterexample :
    specGenuineOccurrence [96] 96 = true ∧ findOpcodes [96] 96 = false := by
  constructor
  · simp [specGenuineOccurrence, instrPositionsFrom, nextIndex, isPushOp]
  · simp [findOpcodes, findOpcodesAux, nextIndex, isPushOp]

/-- Claim C2 (amended): for every byte sequence in which the target byte has
no genuine instruction occurrence (in particular, when it occurs only as
immediate data of push-class instructions), `findOpcodes` returns `false`;
and for every byte sequence containing a NON-push-class target opcode at
least once as a genuine instruction occurrence, `findOpcodes` returns
`true`. (Push-class targets are excluded: the scanner skips push
instructions without comparing them, per the counterexample.) -/
theorem claim_C2_amended (bytecode : List Nat) (opcode : Nat) :
    (specGenuineOccurrence bytecode opcode = false →
      findOpcodes bytecode opcode = false) ∧
    (isPushOp opcode = false → specGenuineOccurrence bytecode opcode = true →
      findOpcodes bytecode opcode = true) := by
  constructor
  · intro hno
    by_contra hfind
    rw [Bool.not_eq_false, findOpcodes, findOpcodesAux_iff] at hfind
    obtain ⟨j, hj, _, hje⟩ := hfind
    have : specGenuineOccurrence bytecode opcode = true := by
      rw [specGenuineOccurrence, List.any_eq_true]
      exact ⟨j, hj, by simpa using hje⟩
    rw [hno] at this
    cases this
  · intro hnp hyes
    rw [specGenuineOccurrence, List.any_eq_true] at hyes
    obtain ⟨j, hj, hje⟩ := hyes
    have hje' : bytecode.getD j 0 = opcode := by simpa using hje
    rw [findOpcodes, findOpcodesAux_iff]
    exact ⟨j, hj, by rw [hje']; exact hnp, hje'⟩

/-- Witness for `claim_C2_amended` at concrete inputs: in `[PUSH1 0xf5]` the
byte 0xf5 occurs only as push immediate data and is not found; in
`[PUSH1 0xf5, CREATE2]` the non-push byte 0xf5 has a genuine occurrence and
is found. -/
theorem claim_C2_amended_witness :
    findOpcodes [96, 245] 245 = false ∧ findOpcodes [96, 245, 245] 245 = true := by
  constructor
  · exact (claim_C2_amended [96, 245] 245).1
      (by simp [specGenuineOccurrence, instrPositionsFrom, nextIndex, isPushOp])
  · exact (claim_C2_amended [96, 245, 245] 245).2 (by simp [isPushOp])
      (by simp [specGenuineOccurrence, instrPositionsFrom, nextIndex, isPushOp])

/-- Claim C5: for every byte sequence and target opcode, the scan terminates
(`findOpcodesAux` is total by the decreasing measure `length - i`), the
cursor strictly advances at every in-range position, every read is in
bounds (the byte access in `findOpcodesAux` carries the bound `i < length`
by construction), and a push instruction whose operand would read past the
end of the sequence consumes the remainder: the scan stops there and
returns `false`. -/
theorem claim_C5 (bytecode : List Nat) (opcode i : Nat) (h : i < bytecode.length) :
    i < nextIndex bytecode i ∧
    (isPushOp (bytecode.getD i 0) = true →
      findOpcodesAux bytecode opcode i =
        findOpcodesAux bytecode opcode (nextIndex bytecode i)) ∧
    (isPushOp (bytecode.getD i 0) = true →
      bytecode.length ≤ nextIndex bytecode i →
      findOpcodesAux bytecode opcode i = false) := by
  refine ⟨lt_nextIndex bytecode i, ?_, ?_⟩
  · intro hp
    rw [findOpcodesAux_of_lt bytecode opcode i h, if_pos hp]
  · intro hp hover
    rw [findOpcodesAux_of_lt bytecode opcode i h, if_pos hp,
      findOpcodesAux_of_ge bytecode opcode _ (by omega)]

/-- Witness for `claim_C5` at a concrete input: a lone truncated `PUSH32`
instruction; the cursor jumps past the end and the scan returns `false`. -/
theorem claim_C5_witness :
    0 < nextIndex [127] 0 ∧ findOpcodesAux [127] 0 0 = false := by
  refine ⟨(claim_C5 [127] 0 0 (by decide)).1, ?_⟩
  exact (claim_C5 [127] 0 0 (by decide)).2.2 (by simp [isPushOp])
    (by simp [nextIndex, isPushOp])

/-- Claim C1, as frozen, is false on the code: `CaptureStart` does not
consult the interruption flag, so invoking it with `create = true` after
`Stop` still mutates the observation mapping — here it inserts the sample
address into a map that was empty when `Stop` was called. -/
theorem claim_C1_counterexample :
    (applyHook (Stop emptyFilterTracer (some "execution timeout"))
        (HookEvent.captureStart sampleAddr sampleAddr true [] 0 0)).Addrs
      (addrToHex sampleAddr) = some "" ∧
    (Stop emptyFilterTracer (some "execution timeout")).Addrs
      (addrToHex sampleAddr) = none := by
  constructor
  · simp [applyHook, CaptureStart, validateAndStoreOpCode, Stop,
      emptyFilterTracer, AddrMap.set, AddrMap.empty, findOpcodes]
  · rfl

/-- Claim C1 (amended): after `Stop` (request-cancel) has been invoked on a
`contractTracer`, no subsequent sequence of hook invocations OTHER THAN
`CaptureStart` changes the tracer at all — `CaptureEnter` checks the
interruption flag and the remaining hooks are unconditional no-ops — so the
`Addrs` map is left unchanged regardless of how many frames remain open.
(`CaptureStart` must be excluded: it does not consult the flag, per the
counterexample.) -/
theorem claim_C1_amended (t : contractTracer) (evs : List HookEvent)
    (hint : t.interrupt = true)
    (hnostart : ∀ e ∈ evs, e.isCaptureStart = false) :
    applyHooks t evs = t := by
  induction evs with
  | nil => rfl
  | cons e es ih =>
    have he : applyHook t e = t := by
      cases e with
      | captureStart fr toA create input gas value =>
        have := hnostart _ (List.mem_cons_self _ _)
        simp [HookEvent.isCaptureStart] at this
      | captureEnter typ fr toA input gas value =>
        simp [applyHook, CaptureEnter, hint]
      | captureEnd output gasUsed err => rfl
      | captureState pc op gas cost depth err => rfl
      | captureFault pc op gas cost depth err => rfl
      | captureExit output gasUsed err => rfl
    have hstep : applyHooks t (e :: es) = applyHooks t es := by
      simp [applyHooks, List.foldl_cons, he]
    rw [hstep]
    exact ih (fun e' he' => hnostart e' (List.mem_cons_of_mem _ he'))

/-- Witness for `claim_C1_amended`: a stopped tracer is untouched by a
concrete sequence of an enter, a state, and an end hook. -/
theorem claim_C1_amended_witness :
    applyHooks (Stop emptyFilterTracer none)
      [HookEvent.captureEnter CREATE sampleAddr sampleAddr [] 0 0,
       HookEvent.captureState 0 0 0 0 1 none,
       HookEvent.captureEnd [] 0 none] = Stop emptyFilterTracer none := by
  refine claim_C1_amended _ _ rfl ?_
  intro e he
  rcases List.mem_cons.1 he with rfl | he
  · rfl
  · rcases List.mem_cons.1 he with rfl | he
    · rfl
    · rcases List.mem_cons.1 he with rfl | he
      · rfl
      · exact absurd he (List.not_mem_nil e)

/-- Claim C3: for a creation event observed by an uninterrupted tracer
(`CaptureStart` with `create = true`, or `CaptureEnter` with opcode CREATE
or CREATE2), both hooks delegate to `validateAndStoreOpCode`, and: with the
"inv" sentinel nothing is ever recorded for any input (the tracer is
unchanged); with the empty filter the creation is recorded
unconditionally; otherwise it is recorded if and only if the scanner finds
the configured opcode in the input bytecode (on a miss the tracer is
unchanged). -/
theorem claim_C3 (t : contractTracer) (fr toA : Address) (input : List Nat)
    (gas value typ : Nat) (hnotint : t.interrupt = false)
    (htyp : typ = CREATE ∨ typ = CREATE2) :
    CaptureStart t fr toA true input gas value = validateAndStoreOpCode t input toA ∧
    CaptureEnter t typ fr toA input gas value = validateAndStoreOpCode t input toA ∧
    (t.config.OpCode = "inv" → validateAndStoreOpCode t input toA = t) ∧
    (t.config.OpCode = "" →
      (validateAndStoreOpCode t input toA).Addrs (addrToHex toA) =
        some (if t.config.WithByteCode then bytesToHex input else "")) ∧
    (t.config.OpCode ≠ "inv" → t.config.OpCode ≠ "" →
      (findOpcodes input (stringToOp t.config.OpCode) = true →
        (validateAndStoreOpCode t input toA).Addrs (addrToHex toA) =
          some (if t.config.WithByteCode then bytesToHex input else "")) ∧
      (findOpcodes input (stringToOp t.config.OpCode) = false →
        validateAndStoreOpCode t input toA = t)) := by
  refine ⟨rfl, ?_, ?_, ?_, ?_⟩
  · rw [CaptureEnter, if_neg (by simp [hnotint]), if_pos htyp]
  · intro hinv
    rw [validateAndStoreOpCode, if_pos (Or.inl hinv)]
  · intro hempty
    rw [validateAndStoreOpCode, if_neg (by simp [hempty])]
    by_cases hw : t.config.WithByteCode <;>
      simp [hw, AddrMap.set]
  · intro hninv hne
    constructor
    · intro hfound
      rw [validateAndStoreOpCode, if_neg (by simp [hninv, hfound])]
      by_cases hw : t.config.WithByteCode <;>
        simp [hw, AddrMap.set]
    · intro hmiss
      rw [validateAndStoreOpCode, if_pos (Or.inr ⟨hne, by simp [hmiss]⟩)]

/-- Witness for `claim_C3`: the empty-filter tracer records a concrete
CREATE2 enter event unconditionally. -/
theorem claim_C3_witness :
    CaptureEnter emptyFilterTracer CREATE2 sampleAddr sampleAddr [0] 5 7 =
      validateAndStoreOpCode emptyFilterTracer [0] sampleAddr ∧
    (validateAndStoreOpCode emptyFilterTracer [0] sampleAddr).Addrs
      (addrToHex sampleAddr) = some "" := by
  have h := claim_C3 emptyFilterTracer sampleAddr sampleAddr [0] 5 7 CREATE2
    rfl (Or.inr rfl)
  exact ⟨h.2.1, by simpa using h.2.2.2.1 rfl⟩

/-- Claim C4: `GetResult` returns the accumulated observation payload
together with the failure component; when an interruption reason was
recorded via `Stop`, that recorded reason is propagated as the failure
component (so the result is not a successful-looking payload), and when no
reason was recorded the failure component is nil and the payload stands
alone. -/
theorem claim_C4 (t : contractTracer) (r : Option String) :
    GetResult (Stop t r) = ((Stop t r).Addrs, r) ∧
    (GetResult (Stop t r)).2 = r ∧
    (t.reason = none → GetResult t = (t.Addrs, none)) := by
  refine ⟨rfl, rfl, ?_⟩
  intro h
  rw [GetResult, h]

/-- Witness for `claim_C4`: stopping a fresh tracer with a concrete reason
makes that reason the failure component of `GetResult`. -/
theorem claim_C4_witness :
    (GetResult (Stop emptyFilterTracer (some "execution timeout"))).2 =
      some "execution timeout" ∧
    GetResult emptyFilterTracer = (emptyFilterTracer.Addrs, none) :=
  ⟨(claim_C4 emptyFilterTracer (some "execution timeout")).2.1,
   (claim_C4 emptyFilterTracer none).2.2 rfl⟩

/-- Claim C6: for every configuration blob that decodes as valid JSON (or an
absent blob), `NewContractTracer` succeeds; in particular an unrecognized
opcode name (one that parses to 0 and is neither "STOP" nor empty) never
fails construction — it is normalized to the sentinel "inv" instead. -/
theorem claim_C6 (config : contractTracerConfig) :
    (∃ t, NewContractTracer (some (Except.ok config)) = Except.ok t) ∧
    (∃ t, NewContractTracer none = Except.ok t) ∧
    (stringToOp config.OpCode = 0 → config.OpCode ≠ "STOP" → config.OpCode ≠ "" →
      (mkTracer config).config.OpCode = "inv") := by
  refine ⟨⟨mkTracer config, rfl⟩, ⟨mkTracer ⟨"", false⟩, rfl⟩, ?_⟩
  intro hz hns hne
  rw [mkTracer]
  simp [hz, hns, hne]

/-- Witness for `claim_C6`: the unrecognized opcode name "FOO" yields a
successfully constructed tracer whose filter is the "inv" sentinel. -/
theorem claim_C6_witness :
    (∃ t, NewContractTracer (some (Except.ok ⟨"FOO", true⟩)) = Except.ok t) ∧
    (mkTracer ⟨"FOO", true⟩).config.OpCode = "inv" :=
  ⟨(claim_C6 ⟨"FOO", true⟩).1,
   (claim_C6 ⟨"FOO", true⟩).2.2 (by decide) (by decide) (by decide)⟩

/-- Claim C7: whenever a creation passes the filter, the tracer stores under
the hex-encoded deployed address an empty marker (`WithByteCode = false`) or
the hex rendering of the input bytecode (`WithByteCode = true`); other keys
are untouched; and a later observation for the same address overwrites the
former, so the address holds exactly the latest observation. -/
theorem claim_C7 (t : contractTracer) (input inp2 : List Nat) (toA : Address)
    (hpass : passesFilter t input) (hpass2 : passesFilter t inp2) :
    (validateAndStoreOpCode t input toA).Addrs (addrToHex toA) =
      some (if t.config.WithByteCode then bytesToHex input else "") ∧
    (∀ k, k ≠ addrToHex toA →
      (validateAndStoreOpCode t input toA).Addrs k = t.Addrs k) ∧
    (validateAndStoreOpCode (validateAndStoreOpCode t input toA) inp2 toA).Addrs
      (addrToHex toA) =
      some (if t.config.WithByteCode then bytesToHex inp2 else "") := by
  rw [passesFilter] at hpass hpass2
  have hstore : ∀ (t' : contractTracer) (inp : List Nat),
      t'.config = t.config →
      ¬ (t.config.OpCode = "inv" ∨
          (t.config.OpCode ≠ "" ∧ ¬ findOpcodes inp (stringToOp t.config.OpCode))) →
      (validateAndStoreOpCode t' inp toA).Addrs =
        t'.Addrs.set (addrToHex toA)
          (if t.config.WithByteCode then bytesToHex inp else "") := by
    intro t' inp hc hp
    rw [validateAndStoreOpCode, if_neg (by rw [hc]; exact hp)]
    by_cases hw : t.config.WithByteCode <;>
      simp [hc, hw]
  refine ⟨?_, ?_, ?_⟩
  · rw [hstore t input rfl hpass, AddrMap.set, if_pos rfl]
  · intro k hk
    rw [hstore t input rfl hpass, AddrMap.set, if_neg hk]
  · have hc : (validateAndStoreOpCode t input toA).config = t.config := by
      rw [validateAndStoreOpCode]
      split
      · rfl
      · split <;> rfl
    rw [hstore _ inp2 hc hpass2, AddrMap.set, if_pos rfl]

/-- Witness for `claim_C7`: with bytecode collection on, recording `[0x01]`
then `[0x01, 0x02]` for the same address leaves the latter's hex rendering
as the single observation for that address. -/
theorem claim_C7_witness :
    (validateAndStoreOpCode (validateAndStoreOpCode bytecodeTracer [1] sampleAddr)
        [1, 2] sampleAddr).Addrs (addrToHex sampleAddr) = some "0x0102" := by
  have h := (claim_C7 bytecodeTracer [1] [1, 2] sampleAddr
    (by simp [passesFilter, bytecodeTracer]) (by simp [passesFilter, bytecodeTracer])).2.2
  simpa [bytecodeTracer, bytesToHex, byteToHexChars, hexDigit] using h

/-- Claim C10: the opcode name "STOP" — instruction code 0 — is accepted as
a valid filter: it is not normalized to the invalid sentinel, and a
creation whose bytecode contains 0x00 as a genuine instruction (found by
the scanner) is recorded; while every other opcode name whose parse yields
0 (every unrecognized name) is normalized to "inv" and records nothing for
any input. -/
theorem claim_C10 (wb : Bool) (name : String) (bc : List Nat) (toA : Address)
    (hz : stringToOp name = 0) (hns : name ≠ "STOP") (hne : name ≠ "")
    (hfind : findOpcodes bc 0 = true) :
    stringToOp "STOP" = 0 ∧
    (mkTracer ⟨"STOP", wb⟩).config.OpCode = "STOP" ∧
    (validateAndStoreOpCode (mkTracer ⟨"STOP", wb⟩) bc toA).Addrs (addrToHex toA) =
      some (if wb then bytesToHex bc else "") ∧
    (mkTracer ⟨name, wb⟩).config.OpCode = "inv" ∧
    (∀ inp toB, validateAndStoreOpCode (mkTracer ⟨name, wb⟩) inp toB =
      mkTracer ⟨name, wb⟩) := by
  have hstop : (mkTracer ⟨"STOP", wb⟩).config.OpCode = "STOP" := by
    rw [mkTracer]
    simp
  have hinv : (mkTracer ⟨name, wb⟩).config.OpCode = "inv" := by
    rw [mkTracer]
    simp [hz, hns, hne]
  have h0 : stringToOp "STOP" = 0 := rfl
  refine ⟨rfl, hstop, ?_, hinv, ?_⟩
  · rw [validateAndStoreOpCode, if_neg (by simp [hstop, h0, hfind])]
    by_cases hb : wb <;>
      simp [mkTracer, hb, AddrMap.set]
  · intro inp toB
    rw [validateAndStoreOpCode, if_pos (Or.inl hinv)]

/-- Witness for `claim_C10`: the STOP-configured tracer records the one-byte
bytecode `[0x00]` (a genuine STOP instruction), while the unrecognized name
"FOO" is normalized to "inv" and records nothing. -/
theorem claim_C10_witness :
    (validateAndStoreOpCode (mkTracer ⟨"STOP", false⟩) [0] sampleAddr).Addrs
      (addrToHex sampleAddr) = some "" ∧
    validateAndStoreOpCode (mkTracer ⟨"FOO", false⟩) [0] sampleAddr =
      mkTracer ⟨"FOO", false⟩ := by
  have h := claim_C10 false "FOO" [0] sampleAddr (by decide) (by decide) (by decide)
    (by simp [findOpcodes, findOpcodesAux, isPushOp])
  exact ⟨by simpa using h.2.2.1, h.2.2.2.2 [0] sampleAddr⟩

/-- Claim C8: the gas-estimation failure messages reproduce the
classification verbatim. A feasibility probe failing for a reason not
attributable to insufficient gas yields "always failing transaction
(execution reverted)" — with the decoded revert reason appended when
decodable, and an invalid-instruction variant for invalid opcodes — and a
call that runs out of gas at the supplied cap yields "gas required exceeds
allowance (<cap>)" with the actual cap value substituted. -/
theorem claim_C8 (exec : Nat → ExecOutcome) (floor cap : Nat) :
    (exec cap = ExecOutcome.outOfGas →
      estimateGas exec floor cap =
        Except.error ("gas required exceeds allowance (" ++ Nat.repr cap ++ ")")) ∧
    (exec cap = ExecOutcome.revert none →
      estimateGas exec floor cap =
        Except.error "always failing transaction (execution reverted)") ∧
    (∀ r, exec cap = ExecOutcome.revert (some r) →
      estimateGas exec floor cap =
        Except.error
          ("always failing transaction (execution reverted) (" ++ r ++ ")")) ∧
    (∀ d, exec cap = ExecOutcome.invalidOpcode d →
      estimateGas exec floor cap =
        Except.error
          ("always failing transaction (invalid opcode: " ++ d ++ ")")) := by
  refine ⟨?_, ?_, ?_, ?_⟩
  · intro h
    rw [estimateGas, h]
  · intro h
    rw [estimateGas, h]
    rfl
  · intro r h
    rw [estimateGas, h]
    rfl
  · intro d h
    rw [estimateGas, h]
    rfl

/-- Witness for `claim_C8`, matching the expectations of
`TestSimulatedBackend_EstimateGas` at cap 100000: the out-of-gas, bare
revert, decoded revert, and invalid-opcode messages. -/
theorem claim_C8_witness :
    estimateGas (fun _ => ExecOutcome.outOfGas) 21000 100000 =
      Except.error "gas required exceeds allowance (100000)" ∧
    estimateGas (fun _ => ExecOutcome.revert none) 21000 100000 =
      Except.error "always failing transaction (execution reverted)" ∧
    estimateGas (fun _ => ExecOutcome.revert (some "revert reason")) 21000 100000 =
      Except.error "always failing transaction (execution reverted) (revert reason)" ∧
    estimateGas (fun _ => ExecOutcome.invalidOpcode "opcode 0xfe not defined")
        21000 100000 =
      Except.error
        "always failing transaction (invalid opcode: opcode 0xfe not defined)" := by
  refine ⟨?_, ?_, ?_, ?_⟩
  · have h := (claim_C8 (fun _ => ExecOutcome.outOfGas) 21000 100000).1 rfl
    simpa using h
  · exact (claim_C8 (fun _ => ExecOutcome.revert none) 21000 100000).2.1 rfl
  · have h := (claim_C8 (fun _ => ExecOutcome.revert (some "revert reason"))
      21000 100000).2.2.1 "revert reason" rfl
    simpa using h
  · have h := (claim_C8 (fun _ => ExecOutcome.invalidOpcode "opcode 0xfe not defined")
      21000 100000).2.2.2 "opcode 0xfe not defined" rfl
    simpa using h

/-- The binary search is correct for a monotonic executor: when `lo` is a
known-failing gas value, `hi` a known-succeeding one, and failures below
the threshold `m` are out-of-gas, the search converges to the unique minimal
successful gas `m`. -/
theorem gasSearch_minimal (exec : Nat → ExecOutcome) (m : Nat)
    (hm : ∀ g, exec g = ExecOutcome.success ↔ m ≤ g)
    (hf : ∀ g, g < m → exec g = ExecOutcome.outOfGas) :
    ∀ lo hi, lo < m → m ≤ hi → gasSearch exec lo hi = Except.ok m := by
  intro lo hi
  generalize hk : hi - lo = k
  induction k using Nat.strong_induction_on generalizing lo hi with
  | _ k ih =>
    intro hlo hhi
    rw [gasSearch]
    by_cases h : hi ≤ lo + 1
    · rw [dif_pos h]
      have : hi = m := by omega
      rw [this]
    · rw [dif_neg h]
      by_cases hsm : m ≤ (lo + hi) / 2
      · have hs : exec ((lo + hi) / 2) = ExecOutcome.success := (hm _).2 hsm
        rw [hs]
        exact ih ((lo + hi) / 2 - lo) (by omega) lo ((lo + hi) / 2) rfl hlo hsm
      · have hs : exec ((lo + hi) / 2) = ExecOutcome.outOfGas := hf _ (by omega)
        rw [hs]
        exact ih (hi - (lo + hi) / 2) (by omega) ((lo + hi) / 2) hi rfl
          (by omega) hhi

/-- Claim C9: for a call whose success is monotonic in gas with minimal
successful gas `m` between the intrinsic floor and the cap (failures below
`m` being out-of-gas), the engine returns exactly `m`; the binary search
stops as soon as `hi - lo ≤ 1` and returns the upper bound; and `m` is the
unique minimal successful gas value. -/
theorem claim_C9 (exec : Nat → ExecOutcome) (floor cap m : Nat)
    (hfl : 0 < floor) (hfm : floor ≤ m) (hmc : m ≤ cap)
    (hm : ∀ g, exec g = ExecOutcome.success ↔ m ≤ g)
    (hf : ∀ g, g < m → exec g = ExecOutcome.outOfGas) :
    estimateGas exec floor cap = Except.ok m ∧
    (∀ g, exec g = ExecOutcome.success → m ≤ g) ∧
    (∀ lo hi, hi ≤ lo + 1 → gasSearch exec lo hi = Except.ok hi) := by
  refine ⟨?_, fun g hg => (hm g).1 hg, fun lo hi h => by rw [gasSearch, dif_pos h]⟩
  have hcap : exec cap = ExecOutcome.success := (hm cap).2 hmc
  rw [estimateGas, hcap]
  exact gasSearch_minimal exec m hm hf (floor - 1) cap (by omega) hmc

/-- Witness for `claim_C9`, the end-to-end transfer scenario: a plain value
transfer (success exactly from gas 21000 up) estimates to the fixed
intrinsic transfer cost 21000 under a 10000000 ceiling. -/
theorem claim_C9_witness :
    estimateGas transferExec 21000 10000000 = Except.ok 21000 :=
  (claim_C9 transferExec 21000 10000000 21000 (by decide) (by decide) (by decide)
    (fun g => by by_cases h : 21000 ≤ g <;> simp [transferExec, h])
    (fun g hg => by simp [transferExec]; omega)).1

end XDC
